import Mathlib

/-!
Verification of the UEFI bootloader in `src/main.rs` (crate root of
`bootloader-uefi`).  The development shallowly embeds the three core
functions of the program — `read_file`, `load_elf` / `load_section`, and
`efi_main` — as executable Lean functions over an explicit machine state
(physical memory modelled as `Nat → Nat`, plus a trace of the firmware
calls and console writes the program performs).  Firmware behaviour that
the program merely consumes (page allocation results, memory-map
retrieval, `exit_boot_services`, storage enumeration) is supplied by
oracle structures, so every theorem quantifies over all firmware
behaviours.  Rust `u64`/`usize` arithmetic is modelled on `Nat` with an
explicit `% 2 ^ 64` at the two places where the source can wrap
(`mem_size + padding` and `num_pages * 4096`); Rust panics (the
`assert!` at main.rs:177, the slice bound and length checks of
`raw_data` / `copy_from_slice` at main.rs:188) are modelled as a
distinct `panic` outcome, which `efi_main` routes to a halt exactly as
the program's `panic_fmt` handler does.
-/

/-- EFI status codes used by the program (`efi::types::Status`).  Only the
variants the source mentions get their own constructor; every other
firmware status is `other n`. -/
inductive Status where
  | NotFound : Status
  | Unsupported : Status
  | InvalidParameter : Status
  | other (n : Nat) : Status
deriving DecidableEq

/-- Program-header types as parsed by `xmas_elf::program::Type`
(`header.get_type()` in `load_section`). -/
inductive Ptype where
  | Null : Ptype
  | Load : Ptype
  | Dynamic : Ptype
  | Interp : Ptype
  | Note : Ptype
  | ShLib : Ptype
  | Phdr : Ptype
  | Tls : Ptype
  | GnuRelro : Ptype
  | OsSpecific (n : Nat) : Ptype
  | ProcessorSpecific (n : Nat) : Ptype
deriving DecidableEq

/-- Decidable equality for `Except`, needed so traces and header fields
can be compared by evaluation. -/
instance exceptDecEq {ε α : Type} [DecidableEq ε] [DecidableEq α] :
    DecidableEq (Except ε α) := fun a b =>
  match a, b with
  | .ok x, .ok y =>
    if h : x = y then .isTrue (by rw [h]) else .isFalse (fun hc => h (by cases hc; rfl))
  | .error x, .error y =>
    if h : x = y then .isTrue (by rw [h]) else .isFalse (fun hc => h (by cases hc; rfl))
  | .ok _, .error _ => .isFalse (fun hc => Except.noConfusion hc)
  | .error _, .ok _ => .isFalse (fun hc => Except.noConfusion hc)

/-- Observable firmware calls and console writes made by the program, in
program order.  `println` stands for one `efi_println!` invocation. -/
inductive Event where
  | println : Event
  | allocPages (addr : Nat) (pages : Nat) (res : Except Status Nat) : Event
  | setMem (addr : Nat) (len : Nat) (val : Nat) : Event
  | copyTo (dst : Nat) (src : List Nat) : Event
  | getMemoryMap (res : Except Status Nat) : Event
  | exitBootServices (key : Nat) (res : Except Status Unit) : Event
  | callEntry (addr : Nat) : Event
deriving DecidableEq

/-- Events the loader stage (`load_elf` / `load_section`) can emit:
console writes, page allocations, zeroing and copies. -/
def loaderEvent : Event → Bool
  | .println => true
  | .allocPages _ _ _ => true
  | .setMem _ _ _ => true
  | .copyTo _ _ => true
  | _ => false

/-- Whether an event is a memory-map retrieval. -/
def isMapEvent : Event → Bool
  | .getMemoryMap _ => true
  | _ => false

/-- Whether an event is an exit-boot-services call. -/
def isExitEvent : Event → Bool
  | .exitBootServices _ _ => true
  | _ => false

/-- One ELF-64 program header (`xmas_elf::program::ProgramHeader64`), with
the fields `load_section` reads.  `get_type` holds the result of
`header.get_type()`: the `xmas_elf` parser returns `Err` for p_type
values outside the recognized ranges (for example p_type = 8), which we
record as `Except.error ()`. -/
structure Segment where
  get_type : Except Unit Ptype
  virtual_addr : Nat
  offset : Nat
  file_size : Nat
  mem_size : Nat
deriving DecidableEq

/-- A program header as matched in `load_elf`
(`xmas_elf::program::ProgramHeader`): the 32-bit and 64-bit variants. -/
inductive PH where
  | ph32 : PH
  | ph64 (h : Segment) : PH
deriving DecidableEq

/-- The parsed ELF file (`xmas_elf::ElfFile`): its program-header table,
its entry point (`header.pt2.entry_point()`), and the raw input bytes
that `raw_data` slices into. -/
structure ElfImg where
  phs : List PH
  entry_point : Nat
  input : List Nat
deriving DecidableEq

/-- Machine state threaded through the embedding: physical memory as a
byte function, and the trace of events performed so far. -/
structure State where
  mem : Nat → Nat
  trace : List Event

/-- Outcome of running a fallible piece of the program: Rust
`Ok`/`Err(Status)`, plus `panic` for a Rust panic (which the program's
`panic_fmt` handler turns into an idle loop, i.e. a halt). -/
inductive Outcome (α : Type) where
  | ok (val : α) (st : State) : Outcome α
  | err (s : Status) (st : State) : Outcome α
  | panic (st : State) : Outcome α

/-- The machine state carried by an outcome, whichever constructor. -/
def outState {α : Type} : Outcome α → State
  | .ok _ st => st
  | .err _ st => st
  | .panic st => st

/-- Whether the outcome is a Rust `Ok`. -/
def isOk {α : Type} : Outcome α → Bool
  | .ok _ _ => true
  | _ => false

/-- Whether the outcome is a Rust panic. -/
def isPanic {α : Type} : Outcome α → Bool
  | .panic _ => true
  | _ => false

/-- Oracle for `boot_services.allocate_pages`: given the requested fixed
base address and page count, the firmware returns the address it
actually allocated at, or a failure status. -/
structure Firmware where
  alloc : Nat → Nat → Except Status Nat

/-- Models `header.virtual_addr & !0x0fff` (main.rs:160).  On `u64`
values (all real inputs, `v < 2 ^ 64`) the bitwise mask coincides with
rounding down to a 4096 multiple. -/
def alignedBase (v : Nat) : Nat := v - v % 4096

/-- Models the page-count computation of main.rs:164-168:
`padding = virtual_addr & 0x0fff`, `total_bytes = mem_size + padding`
(a `u64` addition, hence the `% 2 ^ 64`), and
`num_pages = (1 + (total_bytes >> 12)) as usize`. -/
def numPages (v m : Nat) : Nat := 1 + (m + v % 4096) % 2 ^ 64 / 4096

/-- Byte-wise effect of `boot_services.set_mem(addr, len, val)`. -/
def setRange (m : Nat → Nat) (addr len val : Nat) : Nat → Nat :=
  fun a => if addr ≤ a ∧ a < addr + len then val else m a

/-- Byte-wise effect of copying the byte list `src` to address `addr`
(`dst_buf.copy_from_slice(...)` at main.rs:188). -/
def writeBytes (m : Nat → Nat) (addr : Nat) (src : List Nat) : Nat → Nat :=
  fun a => if addr ≤ a ∧ a < addr + src.length then src.getD (a - addr) 0 else m a

/-- Shallow embedding of `load_section` (main.rs:143-191).  Steps, in
source order: skip non-loadable segments (with a console diagnostic and
`Err(InvalidParameter)` when the type field does not parse); compute the
aligned destination and page count; call `allocate_pages` at the fixed
address; `assert!` that the returned base equals the request (panic
otherwise); `set_mem` the whole allocation to zero; evaluate
`header.raw_data(elf_file)` (panics if `offset + file_size` overruns the
image) and `copy_from_slice` it to the unaligned `virtual_addr` (panics
unless the destination length `mem_size` equals the source length). -/
def load_section (fw : Firmware) (h : Segment) (img : List Nat) (st : State) :
    Outcome Unit :=
  match h.get_type with
  | .error _ => .err .InvalidParameter { st with trace := st.trace ++ [.println] }
  | .ok Ptype.Load =>
    let destination := alignedBase h.virtual_addr
    let num_pages := numPages h.virtual_addr h.mem_size
    match fw.alloc destination num_pages with
    | .error s =>
      .err s { st with trace := st.trace ++ [.allocPages destination num_pages (.error s)] }
    | .ok ret =>
      let st1 : State :=
        { st with trace := st.trace ++ [.allocPages destination num_pages (.ok ret)] }
      if ret = destination then
        let zlen := num_pages * 4096 % 2 ^ 64
        let st2 : State :=
          { mem := setRange st1.mem destination zlen 0,
            trace := st1.trace ++ [.setMem destination zlen 0] }
        if h.offset + h.file_size ≤ img.length then
          let src := (img.drop h.offset).take h.file_size
          if h.mem_size = src.length then
            .ok () { mem := writeBytes st2.mem h.virtual_addr src,
                     trace := st2.trace ++ [.copyTo h.virtual_addr src] }
          else .panic st2
        else .panic st2
      else .panic st1
  | .ok _ => .ok () st

/-- The program-header loop of `load_elf` (main.rs:128-133): a 32-bit
header is rejected with `Err(Unsupported)`; a 64-bit header goes through
`load_section`, whose error or panic aborts the loop. -/
def load_elf_aux (fw : Firmware) (img : List Nat) : List PH → State → Outcome Unit
  | [], st => .ok () st
  | ph :: rest, st =>
    match ph with
    | .ph32 => .err .Unsupported st
    | .ph64 h =>
      match load_section fw h img st with
      | .ok _ st' => load_elf_aux fw img rest st'
      | .err s st' => .err s st'
      | .panic st' => .panic st'

/-- Shallow embedding of `load_elf` (main.rs:123-139): run the header
loop, then print the entry point and return it. -/
def load_elf (fw : Firmware) (elf : ElfImg) (st : State) : Outcome Nat :=
  match load_elf_aux fw elf.input elf.phs st with
  | .ok _ st' => .ok elf.entry_point { st' with trace := st'.trace ++ [.println] }
  | .err s st' => .err s st'
  | .panic st' => .panic st'

/-- Concrete loadable segment from the spec scenario: V = 0x101050,
F = M = 8, source bytes at offset 0 of the image. -/
def segB : Segment := ⟨.ok .Load, 0x101050, 0, 8, 8⟩

/-- Source image bytes for the concrete scenarios. -/
def imgB : List Nat := [1, 2, 3, 4, 5, 6, 7, 8]

/-- Concrete loadable segment with file size 4 ≠ memory size 8. -/
def segNe : Segment := ⟨.ok .Load, 0x101050, 0, 4, 8⟩

/-- What one opened file exposes to `read_file`: the result of the
`FileInfo` size query and the result of `file.read` (the bytes placed in
the pool buffer). -/
structure FileObj where
  sizeRes : Except Status Nat
  readRes : Except Status (List Nat)

/-- One volume root as `read_file` sees it after
`open_protocol::<SimpleFileSystem>` / `open_volume` succeed: the result
of the `FileSystemInfo` label query
(`get_info` composed with `volume_label`), and the result of opening the
requested file under this root. -/
structure FsRoot where
  labelRes : Except Status String
  openRes : Except Status FileObj

/-- Oracle for the firmware calls `read_file` makes:
`locate_handle` (each listed entry is the `open_protocol`/`open_volume`
outcome for one handle, in enumeration order), `str_to_utf16`, and
`allocate_slice`. -/
structure FsEnv where
  locateRes : Except Status (List (Except Status FsRoot))
  utf16Res : Except Status Unit
  allocRes : Nat → Except Status Unit

/-- The volume-match predicate of main.rs:97-102:
`get_info`/`volume_label` composed, then
`.map(|label| label == volume_label).unwrap_or(false)` — exact string
equality, `false` on any query error. -/
def labelMatches (volume_label : String) (root : FsRoot) : Bool :=
  match root.labelRes with
  | .ok l => l == volume_label
  | .error _ => false

/-- The volume-selection pipeline of main.rs:79-103: `filter_map` keeps
the handles whose volume opened (`.ok()`), and `find` takes the first
root whose label matches. -/
def selectVolume (volume_label : String) (handles : List (Except Status FsRoot)) :
    Option FsRoot :=
  (handles.filterMap Except.toOption).find? (labelMatches volume_label)

/-- Shallow embedding of `read_file` (main.rs:71-119): enumerate
filesystem handles, select the first volume whose label matches exactly
(`Err(NotFound)` if none), convert the path, open the file, query its
size, allocate a pool buffer, and read the file into it. -/
def read_file (volume_label : String) (env : FsEnv) : Except Status (List Nat) :=
  match env.locateRes with
  | .error s => .error s
  | .ok handles =>
    match selectVolume volume_label handles with
    | none => .error Status.NotFound
    | some vol_root =>
      match env.utf16Res with
      | .error s => .error s
      | .ok _ =>
        match vol_root.openRes with
        | .error s => .error s
        | .ok file =>
          match file.sizeRes with
          | .error s => .error s
          | .ok file_size =>
            match env.allocRes file_size with
            | .error s => .error s
            | .ok _ =>
              match file.readRes with
              | .error s => .error s
              | .ok file_buf => .ok file_buf

/-- Oracle environment for `efi_main`: the storage environment consumed
by `read_file`, the `ElfFile::new` parse and `header::sanity_check`
results (functions of their input, as in the source), the page-allocation
oracle used by `load_elf`, and the `get_memory_map` /
`exit_boot_services` results. -/
structure MainEnv where
  fsEnv : FsEnv
  parse : List Nat → Except Unit ElfImg
  sanity : ElfImg → Except Unit Unit
  fw : Firmware
  memMap : Except Status Nat
  exitBS : Nat → Except Status Unit

/-- How `efi_main` ends: halted in an idle loop, or control transferred
to the kernel entry point (which never returns). -/
inductive BootResult where
  | halted : BootResult
  | entered (entry : Nat) : BootResult
deriving DecidableEq

/-- Shallow embedding of `efi_main` (main.rs:195-254).  Every
`efi_println!` is one `println` event; each `Err` arm prints a diagnostic
and loops (halts); a panic inside `load_elf` reaches `panic_fmt`, which
prints two lines and loops.  On the success path the memory map is
retrieved once, `exit_boot_services` is called once with that map's key,
and the entry point is invoked. -/
def efi_main (env : MainEnv) (m0 : Nat → Nat) : State × BootResult :=
  let st : State := ⟨m0, [.println]⟩
  match read_file "EFISys" env.fsEnv with
  | .error _ => ({ st with trace := st.trace ++ [.println] }, .halted)
  | .ok file_buf =>
    let st : State := { st with trace := st.trace ++ [.println] }
    match env.parse file_buf with
    | .error _ => ({ st with trace := st.trace ++ [.println] }, .halted)
    | .ok elf =>
      match env.sanity elf with
      | .error _ => ({ st with trace := st.trace ++ [.println] }, .halted)
      | .ok _ =>
        let st : State := { st with trace := st.trace ++ [.println] }
        match load_elf env.fw elf st with
        | .err _ st' => ({ st' with trace := st'.trace ++ [.println] }, .halted)
        | .panic st' => ({ st' with trace := st'.trace ++ [.println, .println] }, .halted)
        | .ok entry st' =>
          let st : State := { st' with trace := st'.trace ++ [.println] }
          match env.memMap with
          | .error e =>
            ({ st with trace := st.trace ++ [.getMemoryMap (.error e), .println] }, .halted)
          | .ok key =>
            let st : State := { st with trace := st.trace ++ [.getMemoryMap (.ok key)] }
            match env.exitBS key with
            | .error e =>
              ({ st with trace := st.trace ++ [.exitBootServices key (.error e), .println] },
                .halted)
            | .ok _ =>
              ({ st with trace := st.trace ++ [.exitBootServices key (.ok ()), .callEntry entry] },
                .entered entry)

/-- All-zero initial memory, used by the concrete scenarios. -/
def memZero : Nat → Nat := fun _ => 0

/-- Empty initial state for concrete scenarios. -/
def st0 : State := ⟨memZero, []⟩

/-- A firmware oracle that honours every fixed-address request. -/
def fwId : Firmware := ⟨fun a _ => .ok a⟩

/-- A file object holding a 16-byte kernel image. -/
def fileEx : FileObj := ⟨.ok 16, .ok [7, 7, 7, 7, 7, 7, 7, 7, 7, 7, 7, 7, 7, 7, 7, 7]⟩

/-- A volume root labelled `EFISys` exposing `fileEx`. -/
def rootEx : FsRoot := ⟨.ok "EFISys", .ok fileEx⟩

/-- A storage environment with a single matching volume. -/
def fsEnvEx : FsEnv := ⟨.ok [.ok rootEx], .ok (), fun _ => .ok ()⟩

/-- A trivially well-formed parsed image: no program headers. -/
def elfEmpty : ElfImg := ⟨[], 0xABC, []⟩

/-- Environment for the failed-handoff scenario: every step up to the
memory-map snapshot succeeds (map key 42), then `exit_boot_services`
fails. -/
def envExitFail : MainEnv :=
  ⟨fsEnvEx, fun _ => .ok elfEmpty, fun _ => .ok (), fwId, .ok 42,
    fun _ => .error (.other 5)⟩

/-- Environment where `get_memory_map` itself fails. -/
def envMapFail : MainEnv :=
  ⟨fsEnvEx, fun _ => .ok elfEmpty, fun _ => .ok (), fwId, .error (.other 9),
    fun _ => .ok ()⟩

/-- Environment where the whole boot sequence succeeds. -/
def envGood : MainEnv :=
  ⟨fsEnvEx, fun _ => .ok elfEmpty, fun _ => .ok (), fwId, .ok 42, fun _ => .ok ()⟩

/-- A firmware oracle that relocates every request one page up,
violating the fixed-address contract. -/
def fwOff : Firmware := ⟨fun a _ => .ok (a + 4096)⟩

/-- Concrete segment whose raw type value does not parse
(`header.get_type()` returns `Err`, as for p_type = 8). -/
def segBadType : Segment := ⟨.error (), 0x2000, 0, 0, 0⟩

/-- Concrete non-loadable segment (dynamic-linking information). -/
def segDyn : Segment := ⟨.ok .Dynamic, 0x5000, 0, 4, 4⟩

/-- A second volume root carrying the same label as `rootEx`. -/
def rootEx2 : FsRoot := ⟨.ok "EFISys", .ok ⟨.ok 4, .ok [9, 9, 9, 9]⟩⟩

/-- A volume root whose label does not match the configured one. -/
def rootOther : FsRoot := ⟨.ok "Other", .ok fileEx⟩

/-- Environment whose single enumerated volume has a different label. -/
def envNoVol : MainEnv :=
  ⟨⟨.ok [Except.ok rootOther], .ok (), fun _ => .ok ()⟩, fun _ => .ok elfEmpty,
    fun _ => .ok (), fwId, .ok 42, fun _ => .ok ()⟩

/-- Helper: indexing into the slice `raw_data` takes out of the image
equals indexing into the image at the shifted offset. -/
theorem getD_drop_take (l : List Nat) (o f i : Nat) (hi : i < f) :
    ((l.drop o).take f).getD i 0 = l.getD (o + i) 0 := by
  rw [List.getD_eq_getElem?_getD, List.getD_eq_getElem?_getD,
    List.getElem?_take_of_lt hi, List.getElem?_drop]

/-- Helper: the length of `raw_data` is exactly `file_size` when the
slice stays inside the image. -/
theorem length_drop_take (l : List Nat) (o f : Nat) (hb : o + f ≤ l.length) :
    ((l.drop o).take f).length = f := by
  simp only [List.length_take, List.length_drop]
  omega

/-- Helper: full characterisation of a successful `load_section` run on a
loadable segment — the allocation request was honoured at the aligned
base, the source slice was in bounds, the sizes matched, and the final
state is zero-fill followed by the copy, with the three corresponding
trace events. -/
theorem load_section_ok_spec (fw : Firmware) (h : Segment) (img : List Nat) (st : State)
    (hty : h.get_type = Except.ok Ptype.Load)
    (hok : isOk (load_section fw h img st) = true) :
    fw.alloc (alignedBase h.virtual_addr) (numPages h.virtual_addr h.mem_size)
        = Except.ok (alignedBase h.virtual_addr)
    ∧ h.offset + h.file_size ≤ img.length
    ∧ h.mem_size = h.file_size
    ∧ load_section fw h img st = Outcome.ok ()
        { mem := writeBytes
            (setRange st.mem (alignedBase h.virtual_addr)
              (numPages h.virtual_addr h.mem_size * 4096 % 2 ^ 64) 0)
            h.virtual_addr ((img.drop h.offset).take h.file_size),
          trace := st.trace ++
            [Event.allocPages (alignedBase h.virtual_addr)
               (numPages h.virtual_addr h.mem_size)
               (Except.ok (alignedBase h.virtual_addr)),
             Event.setMem (alignedBase h.virtual_addr)
               (numPages h.virtual_addr h.mem_size * 4096 % 2 ^ 64) 0,
             Event.copyTo h.virtual_addr ((img.drop h.offset).take h.file_size)] } := by
  simp only [load_section, hty] at hok ⊢
  cases halloc : fw.alloc (alignedBase h.virtual_addr) (numPages h.virtual_addr h.mem_size) with
  | error s =>
    simp only [halloc] at hok
    simp [isOk] at hok
  | ok ret =>
    simp only [halloc] at hok ⊢
    by_cases hret : ret = alignedBase h.virtual_addr
    · subst hret
      simp only [if_pos rfl] at hok ⊢
      by_cases hb : h.offset + h.file_size ≤ img.length
      · simp only [if_pos hb] at hok ⊢
        by_cases hlen : h.mem_size = ((img.drop h.offset).take h.file_size).length
        · have hfm : h.mem_size = h.file_size := by
            rw [hlen, length_drop_take img h.offset h.file_size hb]
          refine ⟨by simp [halloc], hb, hfm, ?_⟩
          simp [hlen, List.append_assoc]
        · simp only [if_neg hlen] at hok
          simp [isOk] at hok
      · simp only [if_neg hb] at hok
        simp [isOk] at hok
    · simp only [if_neg hret] at hok
      simp [isOk] at hok

/-- Helper: a successful `load_section` on a loadable segment forces
file size = memory size (the `copy_from_slice` length check). -/
theorem load_section_ok_sizes (fw : Firmware) (h : Segment) (img : List Nat) (st : State)
    (hty : h.get_type = Except.ok Ptype.Load)
    (hok : isOk (load_section fw h img st) = true) :
    h.file_size = h.mem_size :=
  ((load_section_ok_spec fw h img st hty hok).2.2.1).symm

/-- Helper: success of the program-header loop forces, for every 64-bit
loadable header in the list, equal file and memory sizes. -/
theorem load_elf_aux_ok_sizes (fw : Firmware) (img : List Nat) :
    ∀ (phs : List PH) (st : State), isOk (load_elf_aux fw img phs st) = true →
      ∀ hh : Segment, PH.ph64 hh ∈ phs → hh.get_type = Except.ok Ptype.Load →
        hh.file_size = hh.mem_size := by
  intro phs
  induction phs with
  | nil =>
    intro st hok hh hmem hty
    exact absurd hmem (List.not_mem_nil _)
  | cons ph rest ih =>
    intro st hok hh hmem hty
    cases ph with
    | ph32 => simp [load_elf_aux, isOk] at hok
    | ph64 h0 =>
      cases hls : load_section fw h0 img st with
      | ok v st' =>
        rcases List.mem_cons.mp hmem with heq | hmem'
        · cases heq
          exact load_section_ok_sizes fw hh img st hty (by rw [hls]; rfl)
        · exact ih st' (by simpa [load_elf_aux, hls] using hok) hh hmem' hty
      | err s st' => simp [load_elf_aux, hls, isOk] at hok
      | panic st' => simp [load_elf_aux, hls, isOk] at hok

/-- C1: for every loadable segment with target virtual address V, file
size F and memory size M that `load_section` processes successfully, the
physical allocation was requested and granted exactly at V rounded down
to the nearest 4096-byte boundary, the allocation covers at least the
range from that base through V + M, the F bytes at the unaligned address
V equal the segment's source bytes from the kernel image, and every byte
in [V + F, V + M) is zero. -/
theorem load_section_success_layout (fw : Firmware) (h : Segment) (img : List Nat) (st : State)
    (hty : h.get_type = Except.ok Ptype.Load)
    (hm : h.mem_size + h.virtual_addr % 4096 < 2 ^ 64 - 4095)
    (hok : isOk (load_section fw h img st) = true) :
    fw.alloc (alignedBase h.virtual_addr) (1 + (h.mem_size + h.virtual_addr % 4096) / 4096)
        = Except.ok (alignedBase h.virtual_addr)
    ∧ h.virtual_addr + h.mem_size ≤
        alignedBase h.virtual_addr + (1 + (h.mem_size + h.virtual_addr % 4096) / 4096) * 4096
    ∧ (∀ i, i < h.file_size →
        (outState (load_section fw h img st)).mem (h.virtual_addr + i)
          = img.getD (h.offset + i) 0)
    ∧ (∀ a, h.virtual_addr + h.file_size ≤ a → a < h.virtual_addr + h.mem_size →
        (outState (load_section fw h img st)).mem a = 0) := by
  obtain ⟨halloc, hb, hfm, hls⟩ := load_section_ok_spec fw h img st hty hok
  have hnp : numPages h.virtual_addr h.mem_size
      = 1 + (h.mem_size + h.virtual_addr % 4096) / 4096 := by
    unfold numPages
    rw [Nat.mod_eq_of_lt (by omega)]
  have hsrclen : ((img.drop h.offset).take h.file_size).length = h.file_size :=
    length_drop_take img h.offset h.file_size hb
  refine ⟨by rw [← hnp]; exact halloc, ?_, ?_, ?_⟩
  · unfold alignedBase
    omega
  · intro i hi
    rw [hls]
    simp only [outState, writeBytes]
    rw [hsrclen]
    have hcond : h.virtual_addr ≤ h.virtual_addr + i
        ∧ h.virtual_addr + i < h.virtual_addr + h.file_size := ⟨by omega, by omega⟩
    rw [if_pos hcond]
    have hsub : h.virtual_addr + i - h.virtual_addr = i := by omega
    rw [hsub]
    exact getD_drop_take img h.offset h.file_size i hi
  · intro a h1 h2
    rw [hfm] at h2
    omega

/-- Witness for C1: the spec's concrete segment B scenario
(V = 0x101050, F = M = 8) loads successfully and satisfies the layout
conclusions. -/
theorem load_section_success_layout_witness :
    (segB.get_type = Except.ok Ptype.Load
      ∧ segB.mem_size + segB.virtual_addr % 4096 < 2 ^ 64 - 4095
      ∧ isOk (load_section fwId segB imgB st0) = true)
    ∧ (fwId.alloc (alignedBase segB.virtual_addr)
          (1 + (segB.mem_size + segB.virtual_addr % 4096) / 4096)
          = Except.ok (alignedBase segB.virtual_addr)
      ∧ segB.virtual_addr + segB.mem_size ≤
          alignedBase segB.virtual_addr +
            (1 + (segB.mem_size + segB.virtual_addr % 4096) / 4096) * 4096
      ∧ (∀ i, i < segB.file_size →
          (outState (load_section fwId segB imgB st0)).mem (segB.virtual_addr + i)
            = imgB.getD (segB.offset + i) 0)
      ∧ (∀ a, segB.virtual_addr + segB.file_size ≤ a →
          a < segB.virtual_addr + segB.mem_size →
          (outState (load_section fwId segB imgB st0)).mem a = 0)) :=
  ⟨⟨by decide, by decide, by decide⟩,
   load_section_success_layout fwId segB imgB st0 (by decide) (by decide) (by decide)⟩

/-- C2: the segment copy writes a destination of length M from a source
of length F and `copy_from_slice` requires the lengths to be equal, so a
loadable segment with F ≠ M never completes its load — once the
fixed-address allocation succeeded in place the outcome is exactly a
panic (halting the boot) — and hence the load loop can only succeed when
every loadable segment has F = M. -/
theorem load_section_requires_equal_sizes (fw : Firmware) (img : List Nat) (st : State) :
    (∀ h : Segment, h.get_type = Except.ok Ptype.Load → h.file_size ≠ h.mem_size →
      isOk (load_section fw h img st) = false
      ∧ (fw.alloc (alignedBase h.virtual_addr) (numPages h.virtual_addr h.mem_size)
            = Except.ok (alignedBase h.virtual_addr) →
          isPanic (load_section fw h img st) = true))
    ∧ (∀ (elf : ElfImg) (st1 : State), isOk (load_elf fw elf st1) = true →
        ∀ hh : Segment, PH.ph64 hh ∈ elf.phs → hh.get_type = Except.ok Ptype.Load →
          hh.file_size = hh.mem_size) := by
  constructor
  · intro h hty hne
    constructor
    · cases hok : isOk (load_section fw h img st) with
      | false => rfl
      | true => exact absurd (load_section_ok_sizes fw h img st hty hok) hne
    · intro halloc
      simp only [load_section, hty, halloc, if_pos rfl]
      by_cases hb : h.offset + h.file_size ≤ img.length
      · have hlen : ¬ h.mem_size = ((img.drop h.offset).take h.file_size).length := by
          rw [length_drop_take img h.offset h.file_size hb]
          omega
        simp only [if_pos hb, if_neg hlen, isPanic, if_true]
      · simp only [if_neg hb, isPanic, if_true]
  · intro elf st1 hok hh hmem hty
    cases haux : load_elf_aux fw elf.input elf.phs st1 with
    | ok v st' =>
      exact load_elf_aux_ok_sizes fw elf.input elf.phs st1 (by rw [haux]; rfl) hh hmem hty
    | err s st' => simp [load_elf, haux, isOk] at hok
    | panic st' => simp [load_elf, haux, isOk] at hok

/-- Witness for C2: the segment with F = 4 ≠ M = 8 fails to load, and
with an in-place allocation the failure is a panic. -/
theorem load_section_requires_equal_sizes_witness :
    isOk (load_section fwId segNe imgB st0) = false
    ∧ isPanic (load_section fwId segNe imgB st0) = true :=
  ⟨((load_section_requires_equal_sizes fwId imgB st0).1 segNe (by decide) (by decide)).1,
   ((load_section_requires_equal_sizes fwId imgB st0).1 segNe (by decide) (by decide)).2
     (by decide)⟩

/-- C3 (refuting "halts silently"): with every step up to the
memory-map snapshot succeeding and `exit_boot_services` failing, the
program halts but emits one console diagnostic (the final `println`)
after the failed exit call; likewise a failed `get_memory_map` is
followed by a diagnostic.  The source contradicts its own comment at
main.rs:239 ("no more efi_println! after this"). -/
theorem post_snapshot_errors_print_diagnostics :
    (efi_main envExitFail memZero).2 = BootResult.halted
    ∧ (efi_main envExitFail memZero).1.trace =
        [Event.println, Event.println, Event.println, Event.println, Event.println,
         Event.getMemoryMap (Except.ok 42),
         Event.exitBootServices 42 (Except.error (Status.other 5)), Event.println]
    ∧ (efi_main envMapFail memZero).2 = BootResult.halted
    ∧ (efi_main envMapFail memZero).1.trace =
        [Event.println, Event.println, Event.println, Event.println, Event.println,
         Event.getMemoryMap (Except.error (Status.other 9)), Event.println] :=
  ⟨by decide, by decide, by decide, by decide⟩

/-- C4: on a loadable segment, the allocation request recorded in the
trace is for exactly 1 + ((M + V mod 4096) >> 12) pages at V rounded
down to 4096; when the padded span is an exact multiple of 4096 the
formula requests one page more than the span needs; and on the spec's
segment B (V = 0x101050, M = 8) the page count is 1. -/
theorem load_section_alloc_request (fw : Firmware) (h : Segment) (img : List Nat) (st : State)
    (hty : h.get_type = Except.ok Ptype.Load)
    (hm : h.mem_size + h.virtual_addr % 4096 < 2 ^ 64) :
    (∃ res tail,
      (outState (load_section fw h img st)).trace =
        st.trace ++ Event.allocPages (alignedBase h.virtual_addr)
          (1 + (h.mem_size + h.virtual_addr % 4096) / 4096) res :: tail)
    ∧ ((h.mem_size + h.virtual_addr % 4096) % 4096 = 0 →
        numPages h.virtual_addr h.mem_size * 4096
          = h.mem_size + h.virtual_addr % 4096 + 4096)
    ∧ numPages 1052752 8 = 1 := by
  have hnp : numPages h.virtual_addr h.mem_size
      = 1 + (h.mem_size + h.virtual_addr % 4096) / 4096 := by
    unfold numPages
    rw [Nat.mod_eq_of_lt hm]
  refine ⟨?_, ?_, by decide⟩
  · rw [← hnp]
    simp only [load_section, hty]
    cases halloc : fw.alloc (alignedBase h.virtual_addr) (numPages h.virtual_addr h.mem_size) with
    | error s =>
      exact ⟨Except.error s, [], by simp [outState]⟩
    | ok ret =>
      by_cases hret : ret = alignedBase h.virtual_addr
      · subst hret
        simp only [if_pos rfl]
        by_cases hb : h.offset + h.file_size ≤ img.length
        · simp only [if_pos hb]
          by_cases hlen : h.mem_size = ((img.drop h.offset).take h.file_size).length
          · simp only [if_pos hlen]
            exact ⟨Except.ok (alignedBase h.virtual_addr),
              [Event.setMem (alignedBase h.virtual_addr)
                 (numPages h.virtual_addr h.mem_size * 4096 % 2 ^ 64) 0,
               Event.copyTo h.virtual_addr ((img.drop h.offset).take h.file_size)],
              by simp [outState, List.append_assoc]⟩
          · simp only [if_neg hlen]
            exact ⟨Except.ok (alignedBase h.virtual_addr),
              [Event.setMem (alignedBase h.virtual_addr)
                 (numPages h.virtual_addr h.mem_size * 4096 % 2 ^ 64) 0],
              by simp [outState, List.append_assoc]⟩
        · simp only [if_neg hb]
          exact ⟨Except.ok (alignedBase h.virtual_addr),
            [Event.setMem (alignedBase h.virtual_addr)
               (numPages h.virtual_addr h.mem_size * 4096 % 2 ^ 64) 0],
            by simp [outState, List.append_assoc]⟩
      · simp only [if_neg hret]
        exact ⟨Except.ok ret, [], by simp [outState]⟩
  · intro hdvd
    rw [hnp]
    omega

/-- Witness for C4 at segment B: padding 0x50, span 0x58, one page
requested at base 0x101000. -/
theorem load_section_alloc_request_witness :
    (segB.get_type = Except.ok Ptype.Load
      ∧ segB.mem_size + segB.virtual_addr % 4096 < 2 ^ 64)
    ∧ ((∃ res tail,
        (outState (load_section fwId segB imgB st0)).trace =
          st0.trace ++ Event.allocPages (alignedBase segB.virtual_addr)
            (1 + (segB.mem_size + segB.virtual_addr % 4096) / 4096) res :: tail)
      ∧ ((segB.mem_size + segB.virtual_addr % 4096) % 4096 = 0 →
          numPages segB.virtual_addr segB.mem_size * 4096
            = segB.mem_size + segB.virtual_addr % 4096 + 4096)
      ∧ numPages 1052752 8 = 1) :=
  ⟨⟨by decide, by decide⟩,
   load_section_alloc_request fwId segB imgB st0 (by decide) (by decide)⟩

/-- C5: an image whose (non-empty) program-header table consists of
32-bit headers is rejected by `load_elf` with `Unsupported`, returning
the input state unchanged — so no page allocation, zeroing or copy has
occurred. -/
theorem load_elf_rejects_32bit (fw : Firmware) (elf : ElfImg) (st : State)
    (hall : ∀ ph ∈ elf.phs, ph = PH.ph32) (hne : elf.phs ≠ []) :
    load_elf fw elf st = Outcome.err Status.Unsupported st := by
  cases hp : elf.phs with
  | nil => exact absurd hp hne
  | cons ph rest =>
    have h32 : ph = PH.ph32 := hall ph (by rw [hp]; exact List.mem_cons_self ph rest)
    subst h32
    simp [load_elf, load_elf_aux, hp]

/-- Witness for C5: a one-header 32-bit image is rejected unsupported
with no state change. -/
theorem load_elf_rejects_32bit_witness :
    ((∀ ph ∈ (ElfImg.mk [PH.ph32] 0 []).phs, ph = PH.ph32)
      ∧ (ElfImg.mk [PH.ph32] 0 []).phs ≠ [])
    ∧ load_elf fwId (ElfImg.mk [PH.ph32] 0 []) st0 = Outcome.err Status.Unsupported st0 :=
  ⟨⟨by decide, by decide⟩,
   load_elf_rejects_32bit fwId (ElfImg.mk [PH.ph32] 0 []) st0 (by decide) (by decide)⟩

/-- C6: when the fixed-address allocation returns a base different from
the requested aligned base, `load_section` panics (the `assert!` at
main.rs:177, which halts through `panic_fmt`), and the header loop run
from this segment gives that same panic no matter what segments follow —
no further segment load is attempted. -/
theorem alloc_mismatch_halts (fw : Firmware) (h : Segment) (img : List Nat) (st : State)
    (r : Nat)
    (hty : h.get_type = Except.ok Ptype.Load)
    (halloc : fw.alloc (alignedBase h.virtual_addr) (numPages h.virtual_addr h.mem_size)
        = Except.ok r)
    (hner : r ≠ alignedBase h.virtual_addr) :
    ∃ st', load_section fw h img st = Outcome.panic st'
      ∧ ∀ rest : List PH, load_elf_aux fw img (PH.ph64 h :: rest) st = Outcome.panic st' := by
  have hls : load_section fw h img st = Outcome.panic
      { st with trace := st.trace ++
          [Event.allocPages (alignedBase h.virtual_addr)
            (numPages h.virtual_addr h.mem_size) (Except.ok r)] } := by
    simp only [load_section, hty, halloc, if_neg hner]
  refine ⟨_, hls, ?_⟩
  intro rest
  simp [load_elf_aux, hls]

/-- Witness for C6: the relocating firmware makes segment B's load
panic, independently of any following segments. -/
theorem alloc_mismatch_halts_witness :
    (segB.get_type = Except.ok Ptype.Load
      ∧ fwOff.alloc (alignedBase segB.virtual_addr)
          (numPages segB.virtual_addr segB.mem_size) = Except.ok 1056768
      ∧ (1056768 : Nat) ≠ alignedBase segB.virtual_addr)
    ∧ ∃ st', load_section fwOff segB imgB st0 = Outcome.panic st'
        ∧ ∀ rest : List PH,
            load_elf_aux fwOff imgB (PH.ph64 segB :: rest) st0 = Outcome.panic st' :=
  ⟨⟨by decide, by decide, by decide⟩,
   alloc_mismatch_halts fwOff segB imgB st0 1056768 (by decide) (by decide) (by decide)⟩

/-- C7 counterexample: the claim says every segment whose kind is not
loadable is skipped returning success with no side effect, but a segment
whose kind field fails to parse is not loadable and `load_section`
returns an `InvalidParameter` error after printing a diagnostic. -/
theorem nonloadable_skip_counterexample :
    segBadType.get_type ≠ Except.ok Ptype.Load
    ∧ isOk (load_section fwId segBadType imgB st0) = false
    ∧ (outState (load_section fwId segBadType imgB st0)).trace = [Event.println] :=
  ⟨by decide, by decide, by decide⟩

/-- C7 amended: every segment whose kind parses to a recognized
non-loadable kind is skipped — `load_section` returns success with the
state (memory and trace) completely unchanged, so no allocation, zeroing
or copy happens; a segment whose kind value fails to parse instead
yields `Err(InvalidParameter)` after one console diagnostic, still with
no allocation, zeroing or copy. -/
theorem nonloadable_segments_skipped (fw : Firmware) (h : Segment) (img : List Nat)
    (st : State) :
    (∀ t : Ptype, h.get_type = Except.ok t → t ≠ Ptype.Load →
      load_section fw h img st = Outcome.ok () st)
    ∧ (h.get_type = Except.error () →
      load_section fw h img st = Outcome.err Status.InvalidParameter
        { st with trace := st.trace ++ [Event.println] }) := by
  constructor
  · intro t hty hne
    simp only [load_section, hty]
  · intro hty
    simp [load_section, hty]

/-- Witness for the amended C7: a `Dynamic` segment is skipped with the
state unchanged, and the unparseable-type segment errs with exactly one
diagnostic. -/
theorem nonloadable_segments_skipped_witness :
    load_section fwId segDyn imgB st0 = Outcome.ok () st0
    ∧ load_section fwId segBadType imgB st0 = Outcome.err Status.InvalidParameter
        { st0 with trace := st0.trace ++ [Event.println] } :=
  ⟨(nonloadable_segments_skipped fwId segDyn imgB st0).1 Ptype.Dynamic (by decide) (by decide),
   (nonloadable_segments_skipped fwId segBadType imgB st0).2 (by decide)⟩

/-- Helper: `find?` returns the element at index `i` when that element
satisfies the predicate and no earlier element does. -/
theorem find?_eq_of_first {α : Type} (p : α → Bool) :
    ∀ (l : List α) (i : Nat) (hi : i < l.length),
      p (l.get ⟨i, hi⟩) = true →
      (∀ j (hj : j < l.length), j < i → p (l.get ⟨j, hj⟩) = false) →
      l.find? p = some (l.get ⟨i, hi⟩) := by
  intro l
  induction l with
  | nil =>
    intro i hi
    exact absurd hi (by simp)
  | cons a l ih =>
    intro i hi hp hfirst
    cases i with
    | zero => exact List.find?_cons_of_pos l hp
    | succ n =>
      have ha : p a = false := hfirst 0 (by simp) (Nat.succ_pos n)
      rw [List.find?_cons_of_neg l (by simp [ha])]
      exact ih n (by simpa using hi) hp
        (fun j hj hlt => hfirst (j + 1) (by simpa using hj) (by omega))

/-- C8: volume selection compares each enumerated volume's label to the
configured label by exact string equality, and the `filter_map`/`find`
pipeline of `read_file` chooses the first matching volume in enumeration
order; with several volumes sharing the label, the earliest wins. -/
theorem volume_selection_first_exact (volume_label : String)
    (handles : List (Except Status FsRoot)) (i : Nat)
    (hi : i < (handles.filterMap Except.toOption).length)
    (hmatch : labelMatches volume_label
        ((handles.filterMap Except.toOption).get ⟨i, hi⟩) = true)
    (hfirst : ∀ j (hj : j < (handles.filterMap Except.toOption).length), j < i →
      labelMatches volume_label ((handles.filterMap Except.toOption).get ⟨j, hj⟩) = false) :
    (∀ root : FsRoot, labelMatches volume_label root = true
        ↔ root.labelRes = Except.ok volume_label)
    ∧ selectVolume volume_label handles
        = some ((handles.filterMap Except.toOption).get ⟨i, hi⟩) := by
  constructor
  · intro root
    unfold labelMatches
    cases hres : root.labelRes with
    | ok l => simp
    | error e => simp
  · exact find?_eq_of_first (labelMatches volume_label) _ i hi hmatch hfirst

/-- Witness for C8: with two volumes labelled `EFISys`, selection picks
the first one enumerated. -/
theorem volume_selection_first_exact_witness :
    selectVolume "EFISys" [Except.ok rootEx, Except.ok rootEx2] = some rootEx
    ∧ rootEx2.labelRes = Except.ok "EFISys" :=
  ⟨(volume_selection_first_exact "EFISys" [Except.ok rootEx, Except.ok rootEx2] 0
      (by decide) (by decide)
      (fun j hj hlt => absurd hlt (Nat.not_lt_zero j))).2,
   rfl⟩

/-- C9: when storage enumeration yields no volume whose label equals the
configured one, `read_file` fails with `NotFound`, and `efi_main` emits
the failure diagnostic (the second `println` of its trace) and halts. -/
theorem no_matching_volume_halts (env : MainEnv) (m0 : Nat → Nat)
    (handles : List (Except Status FsRoot))
    (hloc : env.fsEnv.locateRes = Except.ok handles)
    (hnone : ∀ root ∈ handles.filterMap Except.toOption,
      labelMatches "EFISys" root = false) :
    read_file "EFISys" env.fsEnv = Except.error Status.NotFound
    ∧ efi_main env m0 = (State.mk m0 [Event.println, Event.println], BootResult.halted) := by
  have hsel : selectVolume "EFISys" handles = none := by
    unfold selectVolume
    exact List.find?_eq_none.mpr (fun x hx => by simp [hnone x hx])
  have hrf : read_file "EFISys" env.fsEnv = Except.error Status.NotFound := by
    simp [read_file, hloc, hsel]
  refine ⟨hrf, ?_⟩
  simp [efi_main, hrf]

/-- Witness for C9 on a concrete no-match enumeration. -/
theorem no_matching_volume_halts_witness :
    read_file "EFISys" envNoVol.fsEnv = Except.error Status.NotFound
    ∧ efi_main envNoVol memZero
        = (State.mk memZero [Event.println, Event.println], BootResult.halted) :=
  no_matching_volume_halts envNoVol memZero [Except.ok rootOther] rfl (by decide)

/-- Helper: each trace event in a `load_section` run is a println, page
allocation, zeroing or copy — never a map retrieval or exit call. -/
theorem load_section_trace_extend (fw : Firmware) (h : Segment) (img : List Nat) (st : State) :
    ∃ tail, (outState (load_section fw h img st)).trace = st.trace ++ tail
      ∧ ∀ e ∈ tail, loaderEvent e = true := by
  cases hty : h.get_type with
  | error u =>
    exact ⟨[Event.println], by simp [load_section, hty, outState], by simp [loaderEvent]⟩
  | ok t =>
    cases t
    case Load =>
      simp only [load_section, hty]
      cases halloc : fw.alloc (alignedBase h.virtual_addr)
          (numPages h.virtual_addr h.mem_size) with
      | error s =>
        exact ⟨[Event.allocPages (alignedBase h.virtual_addr)
            (numPages h.virtual_addr h.mem_size) (Except.error s)],
          by simp [outState], by simp [loaderEvent]⟩
      | ok ret =>
        by_cases hret : ret = alignedBase h.virtual_addr
        · subst hret
          simp only [if_pos rfl]
          by_cases hb : h.offset + h.file_size ≤ img.length
          · simp only [if_pos hb]
            by_cases hlen : h.mem_size = ((img.drop h.offset).take h.file_size).length
            · simp only [if_pos hlen]
              exact ⟨[Event.allocPages (alignedBase h.virtual_addr)
                  (numPages h.virtual_addr h.mem_size)
                  (Except.ok (alignedBase h.virtual_addr)),
                Event.setMem (alignedBase h.virtual_addr)
                  (numPages h.virtual_addr h.mem_size * 4096 % 2 ^ 64) 0,
                Event.copyTo h.virtual_addr ((img.drop h.offset).take h.file_size)],
                by simp [outState, List.append_assoc], by simp [loaderEvent]⟩
            · simp only [if_neg hlen]
              exact ⟨[Event.allocPages (alignedBase h.virtual_addr)
                  (numPages h.virtual_addr h.mem_size)
                  (Except.ok (alignedBase h.virtual_addr)),
                Event.setMem (alignedBase h.virtual_addr)
                  (numPages h.virtual_addr h.mem_size * 4096 % 2 ^ 64) 0],
                by simp [outState, List.append_assoc], by simp [loaderEvent]⟩
          · simp only [if_neg hb]
            exact ⟨[Event.allocPages (alignedBase h.virtual_addr)
                (numPages h.virtual_addr h.mem_size)
                (Except.ok (alignedBase h.virtual_addr)),
              Event.setMem (alignedBase h.virtual_addr)
                (numPages h.virtual_addr h.mem_size * 4096 % 2 ^ 64) 0],
              by simp [outState, List.append_assoc], by simp [loaderEvent]⟩
        · simp only [if_neg hret]
          exact ⟨[Event.allocPages (alignedBase h.virtual_addr)
              (numPages h.virtual_addr h.mem_size) (Except.ok ret)],
            by simp [outState], by simp [loaderEvent]⟩
    all_goals exact ⟨[], by simp [load_section, hty, outState], by simp⟩

/-- Helper: the header loop only ever appends loader events. -/
theorem load_elf_aux_trace_extend (fw : Firmware) (img : List Nat) :
    ∀ (phs : List PH) (st : State),
      ∃ tail, (outState (load_elf_aux fw img phs st)).trace = st.trace ++ tail
        ∧ ∀ e ∈ tail, loaderEvent e = true := by
  intro phs
  induction phs with
  | nil =>
    intro st
    exact ⟨[], by simp [load_elf_aux, outState], by simp⟩
  | cons ph rest ih =>
    intro st
    cases ph with
    | ph32 => exact ⟨[], by simp [load_elf_aux, outState], by simp⟩
    | ph64 h0 =>
      obtain ⟨tail1, ht1, hl1⟩ := load_section_trace_extend fw h0 img st
      cases hls : load_section fw h0 img st with
      | ok v st' =>
        rw [hls] at ht1
        simp only [outState] at ht1
        obtain ⟨tail2, ht2, hl2⟩ := ih st'
        refine ⟨tail1 ++ tail2, ?_, ?_⟩
        · simp only [load_elf_aux, hls]
          rw [ht2, ht1, List.append_assoc]
        · intro e he
          rcases List.mem_append.mp he with hm | hm
          exacts [hl1 e hm, hl2 e hm]
      | err s st' =>
        rw [hls] at ht1
        simp only [outState] at ht1
        exact ⟨tail1, by simp [load_elf_aux, hls, outState, ht1], hl1⟩
      | panic st' =>
        rw [hls] at ht1
        simp only [outState] at ht1
        exact ⟨tail1, by simp [load_elf_aux, hls, outState, ht1], hl1⟩

/-- Helper: `load_elf` only ever appends loader events. -/
theorem load_elf_trace_extend (fw : Firmware) (elf : ElfImg) (st : State) :
    ∃ tail, (outState (load_elf fw elf st)).trace = st.trace ++ tail
      ∧ ∀ e ∈ tail, loaderEvent e = true := by
  obtain ⟨tail, ht, hl⟩ := load_elf_aux_trace_extend fw elf.input elf.phs st
  cases haux : load_elf_aux fw elf.input elf.phs st with
  | ok v st' =>
    rw [haux] at ht
    simp only [outState] at ht
    refine ⟨tail ++ [Event.println], ?_, ?_⟩
    · simp [load_elf, haux, outState, ht, List.append_assoc]
    · intro e he
      rcases List.mem_append.mp he with hm | hm
      · exact hl e hm
      · simp at hm
        subst hm
        rfl
  | err s st' =>
    rw [haux] at ht
    simp only [outState] at ht
    exact ⟨tail, by simp [load_elf, haux, outState, ht], hl⟩
  | panic st' =>
    rw [haux] at ht
    simp only [outState] at ht
    exact ⟨tail, by simp [load_elf, haux, outState, ht], hl⟩

/-- Helper: a list of loader events contains no map-retrieval and no
exit-services event. -/
theorem loader_tail_filters (tail : List Event)
    (hl : ∀ e ∈ tail, loaderEvent e = true) :
    tail.filter isMapEvent = [] ∧ tail.filter isExitEvent = [] := by
  constructor <;>
    · rw [List.filter_eq_nil_iff]
      intro e he
      have h2 := hl e he
      cases e <;> simp_all [loaderEvent, isMapEvent, isExitEvent]

/-- C10: whenever a boot run's trace contains a successful memory-map
snapshot with key k, the run retrieved the memory map exactly once,
attempted the exit-boot-services call exactly once, and every exit
attempt passed exactly that key k — no second map fetch and no retry
with another key.  The theorem quantifies over every firmware
environment. -/
theorem exit_called_once_with_snapshot_key (env : MainEnv) (m0 : Nat → Nat) (k : Nat)
    (hk : Event.getMemoryMap (Except.ok k) ∈ (efi_main env m0).1.trace) :
    ((efi_main env m0).1.trace.filter isMapEvent).length = 1
    ∧ ((efi_main env m0).1.trace.filter isExitEvent).length = 1
    ∧ ∀ k' r, Event.exitBootServices k' r ∈ (efi_main env m0).1.trace → k' = k := by
  simp only [efi_main] at hk ⊢
  cases hrf : read_file "EFISys" env.fsEnv with
  | error s =>
    simp only [hrf] at hk
    simp at hk
  | ok file_buf =>
    simp only [hrf] at hk ⊢
    cases hpa : env.parse file_buf with
    | error u =>
      simp only [hpa] at hk
      simp at hk
    | ok elf =>
      simp only [hpa] at hk ⊢
      cases hsa : env.sanity elf with
      | error u =>
        simp only [hsa] at hk
        simp at hk
      | ok u =>
        simp only [hsa] at hk ⊢
        obtain ⟨tail, ht, hl⟩ := load_elf_trace_extend env.fw elf
          (State.mk m0 ([Event.println] ++ [Event.println] ++ [Event.println]))
        have hnotail : Event.getMemoryMap (Except.ok k) ∉ tail := by
          intro hmem
          have h2 := hl _ hmem
          simp [loaderEvent] at h2
        have hexittail : ∀ k' r, Event.exitBootServices k' r ∉ tail := by
          intro k' r hmem
          have h2 := hl _ hmem
          simp [loaderEvent] at h2
        cases hld : load_elf env.fw elf
            (State.mk m0 ([Event.println] ++ [Event.println] ++ [Event.println])) with
        | err s st' =>
          rw [hld] at ht
          simp only [outState] at ht
          simp only [hld] at hk
          rw [ht] at hk
          simp at hk
          exact absurd hk hnotail
        | panic st' =>
          rw [hld] at ht
          simp only [outState] at ht
          simp only [hld] at hk
          rw [ht] at hk
          simp at hk
          exact absurd hk hnotail
        | ok entry st' =>
          rw [hld] at ht
          simp only [outState] at ht
          simp only [hld] at hk ⊢
          obtain ⟨hfm, hfe⟩ := loader_tail_filters tail hl
          cases hmm : env.memMap with
          | error e =>
            simp only [hmm] at hk
            rw [ht] at hk
            simp at hk
            exact absurd hk hnotail
          | ok key =>
            simp only [hmm] at hk ⊢
            cases hex : env.exitBS key with
            | error e =>
              simp only [hex] at hk ⊢
              rw [ht] at hk
              simp at hk
              rcases hk with hk | hk
              · exact absurd hk hnotail
              · subst hk
                rw [ht]
                refine ⟨?_, ?_, ?_⟩
                · simp [List.filter_append, hfm, isMapEvent]
                · simp [List.filter_append, hfe, isExitEvent]
                · intro k' r hmem
                  simp at hmem
                  rcases hmem with hmem | hmem
                  · exact absurd hmem (hexittail k' r)
                  · exact hmem.1
            | ok a =>
              simp only [hex] at hk ⊢
              rw [ht] at hk
              simp at hk
              rcases hk with hk | hk
              · exact absurd hk hnotail
              · subst hk
                rw [ht]
                refine ⟨?_, ?_, ?_⟩
                · simp [List.filter_append, hfm, isMapEvent]
                · simp [List.filter_append, hfe, isExitEvent]
                · intro k' r hmem
                  simp at hmem
                  rcases hmem with hmem | hmem
                  · exact absurd hmem (hexittail k' r)
                  · exact hmem.1

/-- Witness for C10: in the all-success environment the snapshot yields
key 42, the map is fetched once and exit is attempted once with 42. -/
theorem exit_called_once_with_snapshot_key_witness :
    (Event.getMemoryMap (Except.ok 42) ∈ (efi_main envGood memZero).1.trace)
    ∧ (((efi_main envGood memZero).1.trace.filter isMapEvent).length = 1
      ∧ ((efi_main envGood memZero).1.trace.filter isExitEvent).length = 1
      ∧ ∀ k' r, Event.exitBootServices k' r ∈ (efi_main envGood memZero).1.trace → k' = 42) :=
  ⟨by decide, exit_called_once_with_snapshot_key envGood memZero 42 (by decide)⟩
